import Mathlib

/-!
Verification development for the xavi round-robin load balancer
(`loadbalancer/roundrobin.go`), the custom health-check registry
(`config` package) and the end-to-end timer error aggregation
(`timer` package).

The Go code is shallowly embedded: the cyclic `container/ring` pool is
represented as a list of endpoints together with a cursor index
(`Next()` is `+1` modulo the pool length), errors built with
`fmt.Errorf` are represented as `Except String`, and the gauge metrics
emitted through `metrics.SetGauge` are returned explicitly as a list of
events (the float values `0.0` / `1.0` are represented exactly as the
naturals `0` / `1`).
-/

namespace Xavi

/-- Embedding of `config.ServerConfig` (the fields `NewLoadBalancer`
reads: `Address`, `Port`, `PingURI`; the go struct's other fields do
not influence the load balancer state). -/
structure ServerConfig where
  address : String
  port : Int
  pingURI : String
deriving DecidableEq, Repr

/-- Embedding of `loadbalancer.LoadBalancerEndpoint`. -/
structure LoadBalancerEndpoint where
  address : String
  pingURI : String
  caCertPath : String
  up : Bool
deriving DecidableEq, Repr

/-- One `metrics.SetGauge(path, value)` call; the float values used by
the code are only `0.0` and `1.0`, represented exactly as `0` and `1`. -/
structure GaugeEvent where
  path : List String
  value : Nat
deriving DecidableEq, Repr

/-- Embedding of `loadbalancer.RoundRobinLoadBalancer`: the ring
`servers *ring.Ring` is a list plus the cursor index of the element the
ring pointer currently designates. -/
structure RoundRobinLoadBalancer where
  backend : String
  servers : List LoadBalancerEndpoint
  cursor : Nat
deriving DecidableEq, Repr

/-- The connect address `fmt.Sprintf("%s:%d", s.Address, s.Port)`. -/
def mkConnectAddress (s : ServerConfig) : String :=
  s.address ++ ":" ++ toString s.port

/-- The endpoint built for one server inside `NewLoadBalancer`. -/
def mkEndpoint (caCertPath : String) (s : ServerConfig) : LoadBalancerEndpoint :=
  { address := mkConnectAddress s
    pingURI := s.pingURI
    caCertPath := caCertPath
    up := true }

/-- Embedding of `RoundRobinLoadBalancerFactory.NewLoadBalancer`.
Besides the load balancer it returns the gauge events
`endpoint.<addr> = 1.0` emitted for each server.  Inserting the k
endpoints each followed by `Next()` leaves the ring pointer on the
first inserted endpoint, hence `cursor := 0`. -/
def NewLoadBalancer (backendName caCertPath : String) (servers : List ServerConfig) :
    Except String (RoundRobinLoadBalancer × List GaugeEvent) :=
  if backendName = "" then
    .error "Expected non-empty backend name"
  else if servers.length = 0 then
    .error "Expected at least one server in servers argument"
  else
    .ok ({ backend := backendName
           servers := servers.map (mkEndpoint caCertPath)
           cursor := 0 },
         servers.map (fun s => { path := ["endpoint", mkConnectAddress s], value := 1 }))

/-- `rr.servers = rr.servers.Next()`: advance the ring pointer. -/
def advance (lb : RoundRobinLoadBalancer) : RoundRobinLoadBalancer :=
  { lb with cursor := (lb.cursor + 1) % lb.servers.length }

/-- The search loop of `GetConnectAddress`: up to `fuel` iterations
(the code uses `rr.servers.Len()`), grab the value under the cursor,
advance, and stop with its address at the first endpoint whose `Up`
flag is true.  An out-of-range cursor plays the role of the non-endpoint
ring value the Go code logs and skips. -/
def gcaLoop : Nat → RoundRobinLoadBalancer → String × RoundRobinLoadBalancer
  | 0, lb => ("", lb)
  | n + 1, lb =>
    match lb.servers[lb.cursor]? with
    | none => gcaLoop n (advance lb)
    | some e =>
      if e.up then (e.address, advance lb)
      else gcaLoop n (advance lb)

/-- Embedding of `RoundRobinLoadBalancer.GetConnectAddress`: one full
revolution at most; an empty `address` after the loop means every
endpoint was down. -/
def GetConnectAddress (lb : RoundRobinLoadBalancer) :
    Except String String × RoundRobinLoadBalancer :=
  let r := gcaLoop lb.servers.length lb
  if r.1 = "" then
    (.error ("All servers in backend " ++ lb.backend ++ " are marked down"), r.2)
  else
    (.ok r.1, r.2)

/-- Faithful model of Go `strings.Split(s, sep)` for the one-character
separator `":"`, on the character list of the string: the number of
parts is the number of separators plus one. -/
def splitOnChar (sep : Char) : List Char → List (List Char)
  | [] => [[]]
  | c :: rest =>
    match splitOnChar sep rest with
    | [] => [[c]]
    | p :: ps => if c = sep then [] :: p :: ps else (c :: p) :: ps

/-- The search-and-set loop of `changeEndpointStatus`: up to `fuel`
iterations (the code uses `rr.servers.Len()`), grab the value under the
cursor, advance, and at the first endpoint whose address matches set its
`Up` flag to `status` and stop, reporting `foundIt`. -/
def cesLoop (connectAddress : String) (status : Bool) :
    Nat → RoundRobinLoadBalancer → Bool × RoundRobinLoadBalancer
  | 0, lb => (false, lb)
  | n + 1, lb =>
    match lb.servers[lb.cursor]? with
    | none => cesLoop connectAddress status n (advance lb)
    | some e =>
      if e.address = connectAddress then
        (true, { backend := lb.backend
                 servers := lb.servers.set lb.cursor { e with up := status }
                 cursor := (lb.cursor + 1) % lb.servers.length })
      else cesLoop connectAddress status n (advance lb)

/-- Embedding of `RoundRobinLoadBalancer.changeEndpointStatus`:
validation (non-empty, exactly two `":"`-separated parts like
`strings.Split`), then one revolution of search, then `ErrNotInPool`
when nothing matched. -/
def changeEndpointStatus (lb : RoundRobinLoadBalancer) (connectAddress : String)
    (status : Bool) : Except String Unit × RoundRobinLoadBalancer :=
  if connectAddress = "" then
    (.error "Non-empty connectAddress expected", lb)
  else if (splitOnChar ':' connectAddress.data).length ≠ 2 then
    (.error ("Expected connect address in the form of host:port (" ++ connectAddress ++ ")"), lb)
  else
    let r := cesLoop connectAddress status lb.servers.length lb
    if r.1 then (.ok (), r.2)
    else (.error ("Address not found in load balancing pool: " ++ connectAddress), r.2)

/-- Embedding of `MarkEndpointUp`: emits `endpoint.<addr> = 1.0`
unconditionally, then delegates to `changeEndpointStatus`. -/
def MarkEndpointUp (lb : RoundRobinLoadBalancer) (connectAddress : String) :
    List GaugeEvent × (Except String Unit × RoundRobinLoadBalancer) :=
  ([{ path := ["endpoint", connectAddress], value := 1 }],
   changeEndpointStatus lb connectAddress true)

/-- Embedding of `MarkEndpointDown`: emits `endpoint.<addr> = 0.0`
unconditionally, then delegates to `changeEndpointStatus`. -/
def MarkEndpointDown (lb : RoundRobinLoadBalancer) (connectAddress : String) :
    List GaugeEvent × (Except String Unit × RoundRobinLoadBalancer) :=
  ([{ path := ["endpoint", connectAddress], value := 0 }],
   changeEndpointStatus lb connectAddress false)

/-- Run `n` successive `GetConnectAddress` calls, collecting the
results and the final state. -/
def runGCA (lb : RoundRobinLoadBalancer) :
    Nat → List (Except String String) × RoundRobinLoadBalancer
  | 0 => ([], lb)
  | n + 1 =>
    let r := GetConnectAddress lb
    let rest := runGCA r.2 n
    (r.1 :: rest.1, rest.2)

/-- An operation of the load balancer's public mutating surface. -/
inductive LBOp where
  | get : LBOp
  | markUp : String → LBOp
  | markDown : String → LBOp
deriving DecidableEq, Repr

/-- One operation: `get` produces a result, the mark operations only
change the state. -/
def runOp (lb : RoundRobinLoadBalancer) :
    LBOp → Option (Except String String) × RoundRobinLoadBalancer
  | .get => let r := GetConnectAddress lb; (some r.1, r.2)
  | .markUp a => (none, (MarkEndpointUp lb a).2.2)
  | .markDown a => (none, (MarkEndpointDown lb a).2.2)

/-- Run a sequence of operations, collecting the `GetConnectAddress`
results in order. -/
def runOps (lb : RoundRobinLoadBalancer) : List LBOp → List (Except String String)
  | [] => []
  | op :: ops =>
    let r := runOp lb op
    r.1.toList ++ runOps r.2 ops

/-- Well-formedness of a pool state: the ring pointer designates an
element of the ring.  It holds for every freshly constructed load
balancer and is preserved by every operation (see
`newLoadBalancer_wf`, `runOp_preserves_wf`). -/
def WF (lb : RoundRobinLoadBalancer) : Prop :=
  lb.cursor < lb.servers.length

@[simp] theorem advance_servers (lb : RoundRobinLoadBalancer) :
    (advance lb).servers = lb.servers := rfl

@[simp] theorem advance_backend (lb : RoundRobinLoadBalancer) :
    (advance lb).backend = lb.backend := rfl

@[simp] theorem advance_cursor (lb : RoundRobinLoadBalancer) :
    (advance lb).cursor = (lb.cursor + 1) % lb.servers.length := rfl

theorem gcaLoop_servers (fuel : Nat) :
    ∀ lb : RoundRobinLoadBalancer, (gcaLoop fuel lb).2.servers = lb.servers := by
  induction fuel with
  | zero => intro lb; rfl
  | succ n ih =>
    intro lb
    unfold gcaLoop
    cases h : lb.servers[lb.cursor]? with
    | none => simpa using ih (advance lb)
    | some e =>
      by_cases hup : e.up
      · simp [hup]
      · simpa [hup] using ih (advance lb)

theorem gcaLoop_backend (fuel : Nat) :
    ∀ lb : RoundRobinLoadBalancer, (gcaLoop fuel lb).2.backend = lb.backend := by
  induction fuel with
  | zero => intro lb; rfl
  | succ n ih =>
    intro lb
    unfold gcaLoop
    cases h : lb.servers[lb.cursor]? with
    | none => simpa using ih (advance lb)
    | some e =>
      by_cases hup : e.up
      · simp [hup]
      · simpa [hup] using ih (advance lb)

theorem gcaLoop_up_of_ne_empty (fuel : Nat) :
    ∀ lb : RoundRobinLoadBalancer, (gcaLoop fuel lb).1 ≠ "" →
      ∃ e ∈ lb.servers, e.address = (gcaLoop fuel lb).1 ∧ e.up = true := by
  induction fuel with
  | zero => intro lb h; exact absurd rfl h
  | succ n ih =>
    intro lb h
    unfold gcaLoop at h ⊢
    cases hc : lb.servers[lb.cursor]? with
    | none =>
      simp only [hc] at h ⊢
      obtain ⟨e, he, ha, hup⟩ := ih (advance lb) h
      exact ⟨e, he, ha, hup⟩
    | some e =>
      simp only [hc] at h ⊢
      by_cases hup : e.up
      · refine ⟨e, List.mem_iff_getElem?.mpr ⟨lb.cursor, hc⟩, ?_, hup⟩
        simp [hup]
      · simp only [hup, if_false] at h ⊢
        obtain ⟨e', he', ha, hu⟩ := ih (advance lb) h
        exact ⟨e', he', ha, hu⟩

theorem gcaLoop_all_down (fuel : Nat) :
    ∀ lb : RoundRobinLoadBalancer, (∀ e ∈ lb.servers, e.up = false) →
      (gcaLoop fuel lb).1 = "" := by
  induction fuel with
  | zero => intro lb _; rfl
  | succ n ih =>
    intro lb hdown
    unfold gcaLoop
    cases hc : lb.servers[lb.cursor]? with
    | none => exact ih (advance lb) hdown
    | some e =>
      have : e.up = false := hdown e (List.mem_iff_getElem?.mpr ⟨lb.cursor, hc⟩)
      simpa [this] using ih (advance lb) hdown

/-- A successful selection names an endpoint that is up at selection
time. -/
theorem getConnectAddress_ok (lb : RoundRobinLoadBalancer) (s : String) :
    (GetConnectAddress lb).1 = .ok s →
    ∃ e ∈ lb.servers, e.address = s ∧ e.up = true := by
  intro h
  unfold GetConnectAddress at h
  by_cases hz : (gcaLoop lb.servers.length lb).1 = ""
  · simp [hz] at h
  · simp only [hz, if_false, Except.ok.injEq] at h
    subst h
    exact gcaLoop_up_of_ne_empty _ lb hz

@[simp] theorem getConnectAddress_servers (lb : RoundRobinLoadBalancer) :
    (GetConnectAddress lb).2.servers = lb.servers := by
  unfold GetConnectAddress
  by_cases hz : (gcaLoop lb.servers.length lb).1 = "" <;>
    simp [hz, gcaLoop_servers]

@[simp] theorem getConnectAddress_backend (lb : RoundRobinLoadBalancer) :
    (GetConnectAddress lb).2.backend = lb.backend := by
  unfold GetConnectAddress
  by_cases hz : (gcaLoop lb.servers.length lb).1 = "" <;>
    simp [hz, gcaLoop_backend]

theorem cesLoop_backend (a : String) (st : Bool) (fuel : Nat) :
    ∀ lb : RoundRobinLoadBalancer, (cesLoop a st fuel lb).2.backend = lb.backend := by
  induction fuel with
  | zero => intro lb; rfl
  | succ n ih =>
    intro lb
    unfold cesLoop
    cases hc : lb.servers[lb.cursor]? with
    | none => simpa using ih (advance lb)
    | some e =>
      by_cases hm : e.address = a
      · simp [hm]
      · simpa [hm] using ih (advance lb)

/-- When the search loop reports not-found, the endpoint list is
untouched. -/
theorem cesLoop_not_found_servers (a : String) (st : Bool) (fuel : Nat) :
    ∀ lb : RoundRobinLoadBalancer, (cesLoop a st fuel lb).1 = false →
      (cesLoop a st fuel lb).2.servers = lb.servers := by
  induction fuel with
  | zero => intro lb _; rfl
  | succ n ih =>
    intro lb h
    unfold cesLoop at h ⊢
    cases hc : lb.servers[lb.cursor]? with
    | none =>
      simp only [hc] at h ⊢
      exact ih (advance lb) h
    | some e =>
      simp only [hc] at h ⊢
      by_cases hm : e.address = a
      · simp [hm] at h
      · simp only [hm, if_false] at h ⊢
        exact ih (advance lb) h

/-- When the search loop reports found, the new endpoint list is the
old one with exactly one matching endpoint's `Up` flag set to the
requested status. -/
theorem cesLoop_found_servers (a : String) (st : Bool) (fuel : Nat) :
    ∀ lb : RoundRobinLoadBalancer, (cesLoop a st fuel lb).1 = true →
      ∃ j e, lb.servers[j]? = some e ∧ e.address = a ∧
        (cesLoop a st fuel lb).2.servers = lb.servers.set j { e with up := st } := by
  induction fuel with
  | zero => intro lb h; simp [cesLoop] at h
  | succ n ih =>
    intro lb h
    unfold cesLoop at h ⊢
    cases hc : lb.servers[lb.cursor]? with
    | none =>
      simp only [hc] at h ⊢
      obtain ⟨j, e, hj, ha, hs⟩ := ih (advance lb) h
      exact ⟨j, e, hj, ha, hs⟩
    | some e =>
      simp only [hc] at h ⊢
      by_cases hm : e.address = a
      · exact ⟨lb.cursor, e, hc, hm, by simp [hm]⟩
      · simp only [hm, if_false] at h ⊢
        obtain ⟨j, e', hj, ha, hs⟩ := ih (advance lb) h
        exact ⟨j, e', hj, ha, hs⟩

/-- When no endpoint in the pool carries the requested address, the
search loop cannot find one. -/
theorem cesLoop_not_found (a : String) (st : Bool) (fuel : Nat) :
    ∀ lb : RoundRobinLoadBalancer, (∀ e ∈ lb.servers, e.address ≠ a) →
      (cesLoop a st fuel lb).1 = false := by
  induction fuel with
  | zero => intro lb _; rfl
  | succ n ih =>
    intro lb hne
    unfold cesLoop
    cases hc : lb.servers[lb.cursor]? with
    | none => simpa using ih (advance lb) hne
    | some e =>
      have : e.address ≠ a := hne e (List.mem_iff_getElem?.mpr ⟨lb.cursor, hc⟩)
      simpa [this] using ih (advance lb) hne

/-- For every ring position `j` there is an offset `i` within one full
revolution from the cursor `c` that reaches it. -/
theorem exists_rotation_offset (c j len : Nat) (hc : c < len) (hj : j < len) :
    ∃ i < len, (c + i) % len = j := by
  refine ⟨(j + len - c) % len, Nat.mod_lt _ (by omega), ?_⟩
  rw [Nat.add_mod_mod]
  have h1 : c + (j + len - c) = j + len := by omega
  rw [h1, Nat.add_mod_right, Nat.mod_eq_of_lt hj]

/-- Completeness of the circular search: a full-revolution budget finds
any address present within the revolution, provided the cursor is in
range. -/
theorem cesLoop_found (a : String) (st : Bool) (fuel : Nat) :
    ∀ lb : RoundRobinLoadBalancer, lb.cursor < lb.servers.length →
      (∃ i < fuel, ∃ e, lb.servers[(lb.cursor + i) % lb.servers.length]? = some e ∧
        e.address = a) →
      (cesLoop a st fuel lb).1 = true := by
  induction fuel with
  | zero => intro lb _ h; obtain ⟨i, hi, _⟩ := h; omega
  | succ n ih =>
    intro lb hc h
    have hlen : 0 < lb.servers.length := Nat.lt_of_le_of_lt (Nat.zero_le _) hc
    obtain ⟨e₀, he₀⟩ : ∃ e₀, lb.servers[lb.cursor]? = some e₀ :=
      ⟨lb.servers[lb.cursor], List.getElem?_eq_getElem hc⟩
    unfold cesLoop
    rw [he₀]
    by_cases hm : e₀.address = a
    · simp [hm]
    · simp only [hm, if_false]
      refine ih (advance lb) (by simpa using Nat.mod_lt _ hlen) ?_
      obtain ⟨i, hi, e, hie, hea⟩ := h
      match i with
      | 0 =>
        rw [Nat.add_zero, Nat.mod_eq_of_lt hc, he₀] at hie
        cases hie
        exact absurd hea hm
      | i' + 1 =>
        refine ⟨i', by omega, e, ?_, hea⟩
        have harith : ((lb.cursor + 1) % lb.servers.length + i') % lb.servers.length =
            (lb.cursor + (i' + 1)) % lb.servers.length := by
          rw [Nat.mod_add_mod]
          congr 1
          omega
        simpa [harith] using hie

/-- Setting a list position to the value it already holds is the
identity. -/
theorem set_getElem?_self {α : Type} (l : List α) (j : Nat) (a : α)
    (h : l[j]? = some a) : l.set j a = l := by
  apply List.ext_getElem?
  intro n
  rw [List.getElem?_set]
  by_cases hn : j = n
  · subst hn
    have : j < l.length := by
      by_contra hlt
      rw [List.getElem?_eq_none (by omega)] at h
      cases h
    simp [this, h.symm]
  · simp [hn]

/-- The frame of `changeEndpointStatus`: the endpoint list is either
unchanged, or exactly one endpoint whose address matches had its `Up`
flag set. -/
def OnlyUpChanged (a : String) (st : Bool)
    (old new : List LoadBalancerEndpoint) : Prop :=
  new = old ∨ ∃ j e, old[j]? = some e ∧ e.address = a ∧
    new = old.set j { e with up := st }

theorem changeEndpointStatus_backend (lb : RoundRobinLoadBalancer)
    (a : String) (st : Bool) :
    (changeEndpointStatus lb a st).2.backend = lb.backend := by
  unfold changeEndpointStatus
  by_cases h0 : a = ""
  · simp [h0]
  · by_cases h1 : (splitOnChar ':' a.data).length ≠ 2
    · simp [h0, h1]
    · by_cases h2 : (cesLoop a st lb.servers.length lb).1 <;>
        simp [h0, h1, h2, cesLoop_backend]

theorem changeEndpointStatus_frame (lb : RoundRobinLoadBalancer)
    (a : String) (st : Bool) :
    OnlyUpChanged a st lb.servers (changeEndpointStatus lb a st).2.servers := by
  unfold changeEndpointStatus
  by_cases h0 : a = ""
  · left; simp [h0]
  · by_cases h1 : (splitOnChar ':' a.data).length ≠ 2
    · left; simp [h0, h1]
    · by_cases h2 : (cesLoop a st lb.servers.length lb).1
      · right
        obtain ⟨j, e, hj, ha, hs⟩ := cesLoop_found_servers a st lb.servers.length lb h2
        exact ⟨j, e, hj, ha, by simp [h0, h1, h2, hs]⟩
      · left
        have := cesLoop_not_found_servers a st lb.servers.length lb (by simpa using h2)
        simp [h0, h1, h2, this]

/-- Only-up-changed lists have identical address sequences: membership
and order of the ring are preserved. -/
theorem onlyUpChanged_map_address (a : String) (st : Bool)
    (old new : List LoadBalancerEndpoint) (h : OnlyUpChanged a st old new) :
    new.map (fun e => e.address) = old.map (fun e => e.address) := by
  cases h with
  | inl h => rw [h]
  | inr h =>
    obtain ⟨j, e, hj, _, hs⟩ := h
    rw [hs, List.map_set]
    apply set_getElem?_self
    rw [List.getElem?_map, hj]
    rfl

/-- When `changeEndpointStatus` reports an error, no `Up` flag has
changed. -/
theorem changeEndpointStatus_error_servers (lb : RoundRobinLoadBalancer)
    (a : String) (st : Bool) (msg : String) :
    (changeEndpointStatus lb a st).1 = .error msg →
    (changeEndpointStatus lb a st).2.servers = lb.servers := by
  intro herr
  unfold changeEndpointStatus at herr ⊢
  by_cases h0 : a = ""
  · simp [h0]
  · by_cases h1 : (splitOnChar ':' a.data).length ≠ 2
    · simp [h0, h1]
    · by_cases h2 : (cesLoop a st lb.servers.length lb).1
      · simp [h0, h1, h2] at herr
      · simp only [h0, h1, h2] at herr ⊢
        simp only [if_false, if_neg, Bool.false_eq_true, not_false_eq_true]
        exact cesLoop_not_found_servers a st lb.servers.length lb (by simpa using h2)

/-- Splitting the empty string yields one part, so a string with two
`":"`-separated parts is non-empty. -/
theorem splitOnChar_nil (sep : Char) : splitOnChar sep [] = [[]] := rfl

theorem ne_empty_of_two_parts (a : String)
    (h : (splitOnChar ':' a.data).length = 2) : a ≠ "" := by
  intro h0
  subst h0
  simp [splitOnChar] at h

theorem newLoadBalancer_wf (name cert : String) (ss : List ServerConfig)
    (lb : RoundRobinLoadBalancer) (evs : List GaugeEvent)
    (h : NewLoadBalancer name cert ss = .ok (lb, evs)) : WF lb := by
  unfold NewLoadBalancer at h
  by_cases h0 : name = ""
  · simp [h0] at h
  · by_cases h1 : ss.length = 0
    · simp [h0, h1] at h
    · simp only [h0, h1, if_false, Except.ok.injEq, Prod.mk.injEq] at h
      obtain ⟨hlb, _⟩ := h
      subst hlb
      simpa [WF] using Nat.pos_of_ne_zero h1

theorem gcaLoop_wf (fuel : Nat) :
    ∀ lb : RoundRobinLoadBalancer, WF lb → WF (gcaLoop fuel lb).2 := by
  induction fuel with
  | zero => intro lb h; exact h
  | succ n ih =>
    intro lb h
    have hlen : 0 < lb.servers.length := Nat.lt_of_le_of_lt (Nat.zero_le _) h
    unfold gcaLoop
    cases hc : lb.servers[lb.cursor]? with
    | none => exact ih (advance lb) (by simpa [WF] using Nat.mod_lt _ hlen)
    | some e =>
      by_cases hup : e.up
      · simpa [hup, WF] using Nat.mod_lt _ hlen
      · simpa [hup] using ih (advance lb) (by simpa [WF] using Nat.mod_lt _ hlen)

theorem cesLoop_wf (a : String) (st : Bool) (fuel : Nat) :
    ∀ lb : RoundRobinLoadBalancer, WF lb → WF (cesLoop a st fuel lb).2 := by
  induction fuel with
  | zero => intro lb h; exact h
  | succ n ih =>
    intro lb h
    have hlen : 0 < lb.servers.length := Nat.lt_of_le_of_lt (Nat.zero_le _) h
    unfold cesLoop
    cases hc : lb.servers[lb.cursor]? with
    | none => exact ih (advance lb) (by simpa [WF] using Nat.mod_lt _ hlen)
    | some e =>
      by_cases hm : e.address = a
      · have : (lb.servers.set lb.cursor { e with up := st }).length = lb.servers.length :=
          List.length_set lb.servers lb.cursor { e with up := st }
        simpa [hm, WF, this] using Nat.mod_lt _ hlen
      · simpa [hm] using ih (advance lb) (by simpa [WF] using Nat.mod_lt _ hlen)

theorem runOp_preserves_wf (lb : RoundRobinLoadBalancer) (op : LBOp)
    (h : WF lb) : WF (runOp lb op).2 := by
  cases op with
  | get =>
    have := gcaLoop_wf lb.servers.length lb h
    unfold runOp GetConnectAddress
    by_cases hz : (gcaLoop lb.servers.length lb).1 = "" <;> simpa [hz]
  | markUp a =>
    unfold runOp MarkEndpointUp changeEndpointStatus
    by_cases h0 : a = ""
    · simpa [h0]
    · by_cases h1 : (splitOnChar ':' a.data).length ≠ 2
      · simpa [h0, h1]
      · have := cesLoop_wf a true lb.servers.length lb h
        by_cases h2 : (cesLoop a true lb.servers.length lb).1 <;>
          simpa [h0, h1, h2]
  | markDown a =>
    unfold runOp MarkEndpointDown changeEndpointStatus
    by_cases h0 : a = ""
    · simpa [h0]
    · by_cases h1 : (splitOnChar ':' a.data).length ≠ 2
      · simpa [h0, h1]
      · have := cesLoop_wf a false lb.servers.length lb h
        by_cases h2 : (cesLoop a false lb.servers.length lb).1 <;>
          simpa [h0, h1, h2]

/-- The connect address of a server is never the empty string (it
always contains the `":"` put in by the `host:port` formatting). -/
theorem mkConnectAddress_ne_empty (s : ServerConfig) : mkConnectAddress s ≠ "" := by
  intro h
  have hdata : (mkConnectAddress s).data = [] := by rw [h]
  unfold mkConnectAddress at hdata
  rw [String.data_append, String.data_append] at hdata
  simp at hdata

/-- One `GetConnectAddress` step on a pool whose cursor designates an
up endpoint with a non-empty address: that address is returned and the
ring advances one slot. -/
theorem getConnectAddress_step (lb : RoundRobinLoadBalancer)
    (e : LoadBalancerEndpoint) (hc : lb.servers[lb.cursor]? = some e)
    (hup : e.up = true) (hne : e.address ≠ "") :
    GetConnectAddress lb = (.ok e.address, advance lb) := by
  have hcur : lb.cursor < lb.servers.length := by
    by_contra hlt
    rw [List.getElem?_eq_none (by omega)] at hc
    cases hc
  obtain ⟨m, hm⟩ : ∃ m, lb.servers.length = m + 1 :=
    ⟨lb.servers.length - 1, by omega⟩
  unfold GetConnectAddress
  rw [hm]
  unfold gcaLoop
  rw [hc]
  simp [hup, hne]

theorem runGCA_succ (lb : RoundRobinLoadBalancer) (n : Nat) :
    runGCA lb (n + 1) =
      ((GetConnectAddress lb).1 :: (runGCA (GetConnectAddress lb).2 n).1,
       (runGCA (GetConnectAddress lb).2 n).2) := rfl

/-- Decomposing a run of selections into two consecutive runs. -/
theorem runGCA_add (m n : Nat) :
    ∀ lb : RoundRobinLoadBalancer,
      runGCA lb (m + n) =
        ((runGCA lb m).1 ++ (runGCA (runGCA lb m).2 n).1,
         (runGCA (runGCA lb m).2 n).2) := by
  induction m with
  | zero => intro lb; simp [runGCA]
  | succ k ih =>
    intro lb
    have hsucc : k + 1 + n = (k + n) + 1 := by omega
    rw [hsucc, runGCA_succ, ih (GetConnectAddress lb).2, runGCA_succ]
    simp

/-- Ring-order selection: starting with the cursor on the first element
of `es₂` inside the pool `es₁ ++ es₂`, with every endpoint up and
carrying a non-empty address, the next `es₂.length` selections return
the addresses of `es₂` in order, and the cursor then rests on the first
pool element (provided at least one selection happened). -/
theorem runGCA_all_up (b : String) :
    ∀ (es₂ es₁ : List LoadBalancerEndpoint),
      (∀ e ∈ es₁ ++ es₂, e.up = true ∧ e.address ≠ "") →
      runGCA { backend := b, servers := es₁ ++ es₂, cursor := es₁.length } es₂.length =
        (es₂.map (fun e => Except.ok e.address),
         if es₂ = [] then { backend := b, servers := es₁ ++ es₂, cursor := es₁.length }
         else { backend := b, servers := es₁ ++ es₂, cursor := 0 }) := by
  intro es₂
  induction es₂ with
  | nil => intro es₁ _; simp [runGCA]
  | cons e rest ih =>
    intro es₁ hall
    have hmem : e ∈ es₁ ++ e :: rest := by simp
    have hc : (es₁ ++ e :: rest)[es₁.length]? = some e := by
      rw [List.getElem?_append]
      simp
    have hstep :
        GetConnectAddress { backend := b, servers := es₁ ++ e :: rest, cursor := es₁.length } =
          (.ok e.address,
           advance { backend := b, servers := es₁ ++ e :: rest, cursor := es₁.length }) :=
      getConnectAddress_step _ e hc (hall e hmem).1 (hall e hmem).2
    show runGCA _ (rest.length + 1) = _
    rw [Nat.add_comm rest.length 1, runGCA_add 1 rest.length]
    have h1 : runGCA { backend := b, servers := es₁ ++ e :: rest, cursor := es₁.length } 1 =
        ([Except.ok e.address],
         advance { backend := b, servers := es₁ ++ e :: rest, cursor := es₁.length }) := by
      unfold runGCA
      rw [hstep]
      simp [runGCA]
    rw [h1]
    cases rest with
    | nil =>
      have hadv :
          advance { backend := b, servers := es₁ ++ [e], cursor := es₁.length } =
            { backend := b, servers := es₁ ++ [e], cursor := 0 } := by
        unfold advance
        simp
      rw [hadv]
      simp [runGCA]
    | cons e' rest' =>
      have hlt : es₁.length + 1 < (es₁ ++ e :: e' :: rest').length := by
        simp only [List.length_append, List.length_cons]
        omega
      have hserv : es₁ ++ e :: e' :: rest' = (es₁ ++ [e]) ++ e' :: rest' :=
        (List.append_assoc es₁ [e] (e' :: rest')).symm
      have hadv :
          advance { backend := b, servers := es₁ ++ e :: e' :: rest', cursor := es₁.length } =
            { backend := b, servers := (es₁ ++ [e]) ++ e' :: rest',
              cursor := (es₁ ++ [e]).length } := by
        show ({ backend := b, servers := es₁ ++ e :: e' :: rest',
                cursor := (es₁.length + 1) % (es₁ ++ e :: e' :: rest').length } :
              RoundRobinLoadBalancer) = _
        rw [Nat.mod_eq_of_lt hlt, hserv]
        have hlen1 : (es₁ ++ [e]).length = es₁.length + 1 := by simp
        rw [hlen1]
      have hall' : ∀ x ∈ (es₁ ++ [e]) ++ e' :: rest', x.up = true ∧ x.address ≠ "" := by
        intro x hx
        exact hall x (hserv ▸ hx)
      rw [hadv, ih (es₁ ++ [e]) hall', ← hserv]
      simp

/-- Every endpoint carrying the given address is marked down. -/
def AllDownAt (addr : String) (lb : RoundRobinLoadBalancer) : Prop :=
  ∀ e ∈ lb.servers, e.address = addr → e.up = false

/-- `changeEndpointStatus` preserves `AllDownAt addr` whenever it marks
down, or marks up an address other than `addr`. -/
theorem allDownAt_changeEndpointStatus (lb : RoundRobinLoadBalancer)
    (a addr : String) (st : Bool) (h : AllDownAt addr lb)
    (hcase : st = false ∨ a ≠ addr) :
    AllDownAt addr (changeEndpointStatus lb a st).2 := by
  cases changeEndpointStatus_frame lb a st with
  | inl hsame => intro e he ha; exact h e (hsame ▸ he) ha
  | inr hset =>
    obtain ⟨j, ej, hj, haj, hs⟩ := hset
    intro e he ha
    rw [hs] at he
    obtain ⟨i, hi⟩ := List.mem_iff_getElem?.mp he
    rw [List.getElem?_set] at hi
    by_cases hij : j = i
    · rw [if_pos hij] at hi
      by_cases hlt : j < lb.servers.length
      · rw [if_pos hlt] at hi
        cases hi
        cases hcase with
        | inl hst => exact hst
        | inr hne =>
          have haa : a = addr := haj ▸ (show ej.address = addr from ha)
          exact absurd haa hne
      · rw [if_neg hlt] at hi
        cases hi
    · rw [if_neg hij] at hi
      exact h e (List.mem_iff_getElem?.mpr ⟨i, hi⟩) ha

/-- A successful `MarkEndpointDown addr` on a pool with pairwise
distinct addresses leaves every endpoint carrying `addr` down. -/
theorem allDownAt_after_mark_down (lb : RoundRobinLoadBalancer) (addr : String)
    (hnd : (lb.servers.map fun e => e.address).Nodup)
    (hok : (MarkEndpointDown lb addr).2.1 = .ok ()) :
    AllDownAt addr (MarkEndpointDown lb addr).2.2 := by
  have hok' : (changeEndpointStatus lb addr false).1 = .ok () := hok
  unfold changeEndpointStatus at hok'
  by_cases h0 : addr = ""
  · simp [h0] at hok'
  · by_cases h1 : (splitOnChar ':' addr.data).length ≠ 2
    · simp [h0, h1] at hok'
    · by_cases h2 : (cesLoop addr false lb.servers.length lb).1
      · obtain ⟨j, ej, hj, haj, hs⟩ :=
          cesLoop_found_servers addr false lb.servers.length lb h2
        have hstate : (MarkEndpointDown lb addr).2.2 =
            (cesLoop addr false lb.servers.length lb).2 := by
          show (changeEndpointStatus lb addr false).2 = _
          unfold changeEndpointStatus
          simp [h0, h1, h2]
        rw [hstate]
        intro e he ha
        rw [hs] at he
        obtain ⟨i, hi⟩ := List.mem_iff_getElem?.mp he
        rw [List.getElem?_set] at hi
        by_cases hij : j = i
        · rw [if_pos hij] at hi
          by_cases hlt : j < lb.servers.length
          · rw [if_pos hlt] at hi
            cases hi
            rfl
          · rw [if_neg hlt] at hi
            cases hi
        · rw [if_neg hij] at hi
          have hilt : i < lb.servers.length := by
            by_contra hc
            rw [List.getElem?_eq_none (by omega)] at hi
            cases hi
          have hmapi : (lb.servers.map fun e => e.address)[i]? = some addr := by
            rw [List.getElem?_map, hi]
            simp [ha]
          have hmapj : (lb.servers.map fun e => e.address)[j]? = some addr := by
            rw [List.getElem?_map, hj]
            simp [haj]
          have : i = j :=
            List.getElem?_inj (by simpa using hilt) hnd (hmapi.trans hmapj.symm)
          exact absurd this.symm hij
      · simp [h0, h1, h2] at hok'

/-- Once every endpoint carrying `addr` is down, no run of operations
avoiding `MarkEndpointUp addr` ever selects `addr`. -/
theorem runOps_avoids_down (addr : String) :
    ∀ (ops : List LBOp) (lb : RoundRobinLoadBalancer), AllDownAt addr lb →
      LBOp.markUp addr ∉ ops → Except.ok addr ∉ runOps lb ops := by
  intro ops
  induction ops with
  | nil => intro lb _ _; simp [runOps]
  | cons op rest ih =>
    intro lb h hnotin
    have hhead : op ≠ LBOp.markUp addr := fun he => hnotin (he ▸ List.mem_cons_self op rest)
    have hrest : LBOp.markUp addr ∉ rest := fun hr => hnotin (List.mem_cons_of_mem op hr)
    cases op with
    | get =>
      intro hmem
      unfold runOps runOp at hmem
      simp only [Option.toList_some, List.cons_append, List.nil_append,
        List.mem_cons] at hmem
      cases hmem with
      | inl hfirst =>
        obtain ⟨e, he, ha, hup⟩ := getConnectAddress_ok lb addr hfirst.symm
        exact absurd hup (by simp [h e he ha])
      | inr hrest' =>
        have hpres : AllDownAt addr (GetConnectAddress lb).2 := by
          intro e he ha
          exact h e (getConnectAddress_servers lb ▸ he) ha
        exact ih (GetConnectAddress lb).2 hpres hrest hrest'
    | markUp a =>
      have hne : a ≠ addr := fun he => hhead (by rw [he])
      intro hmem
      unfold runOps runOp at hmem
      simp only [Option.toList_none, List.nil_append] at hmem
      have hpres : AllDownAt addr (MarkEndpointUp lb a).2.2 :=
        allDownAt_changeEndpointStatus lb a addr true h (Or.inr hne)
      exact ih (MarkEndpointUp lb a).2.2 hpres hrest hmem
    | markDown a =>
      intro hmem
      unfold runOps runOp at hmem
      simp only [Option.toList_none, List.nil_append] at hmem
      have hpres : AllDownAt addr (MarkEndpointDown lb a).2.2 :=
        allDownAt_changeEndpointStatus lb a addr false h (Or.inl rfl)
      exact ih (MarkEndpointDown lb a).2.2 hpres hrest hmem

/-- The error taxonomy of the custom health-check registry. -/
inductive HCError where
  | errNoHealthCheckFn : HCError
  | errNoSuchServer : HCError
deriving DecidableEq, Repr

/-- Modelled from the spec: the implementation of
`config.RegisterHealthCheckForServer` is not under `src/` (only its
tests are).  Spec 4.2: "Registration requires the named server to exist
in the current config snapshot; otherwise fails with `ErrNoSuchServer`.
Registering a nil function fails with `ErrNoHealthCheckFn`."  The nil
check precedes the server-existence check, as fixed by
`TestCustomHCNoFunction` (unknown server name and nil function yields
`ErrNoHealthCheckFn`).  The config snapshot read through the KV store
is represented by its list of server names, a health-check function
value is abstract (`F`), and Go's nil function is `Option.none`. -/
def RegisterHealthCheckForServer (F : Type) (serverNames : List String)
    (registry : List (String × F)) (name : String) (fn : Option F) :
    Except HCError (List (String × F)) :=
  match fn with
  | none => .error .errNoHealthCheckFn
  | some f =>
    if name ∈ serverNames then .ok ((name, f) :: registry)
    else .error .errNoSuchServer

/-- Modelled from the spec: "Lookup by server name returns the
registered function or nil." -/
def HealthCheckForServer (F : Type) (registry : List (String × F))
    (name : String) : Option F :=
  registry.lookup name

/-- One contributor of an end-to-end timer, reduced to the fields the
error-aggregation contract mentions. -/
structure TimerContributor where
  name : String
  error : String
deriving DecidableEq, Repr

/-- Modelled from the spec: the end-to-end timer implementation
(`timer` package) is not under `src/` (only its tests are).  Spec 3 and
4.4: the root holds `Name`, `Error`, `ErrorFree` and `Contributors`;
the wall-clock fields (`Start`, `End`, `Duration`, `Tracking`, the
contributors' `ServiceCalls`) play no role in the error-aggregation
claims and are left out of the embedding. -/
structure EndToEndTimer where
  name : String
  error : String
  errorFree : Bool
  contributors : List TimerContributor
deriving DecidableEq, Repr

/-- Modelled from the spec: "`T.ContributorErrors()` returns the subset
of contributors with non-empty `Error`." -/
def ContributorErrors (t : EndToEndTimer) : List TimerContributor :=
  t.contributors.filter (fun c => c.error != "")

/-- Modelled from the spec: "`T.Stop(err?)` records ... sets `Error`
to the error message or the empty string" and fixes the aggregate:
"`T.ErrorFree` is true iff `T.Error` is empty AND no contributor
reports an error." -/
def Stop (t : EndToEndTimer) (err : Option String) : EndToEndTimer :=
  { t with
    error := err.getD ""
    errorFree := (err.getD "" == "") && (t.contributors.all fun c => c.error == "") }

/-- The three-server configuration of spec scenarios S1-S4
(`a:1`, `a:2`, `a:3`). -/
def ssA3 : List ServerConfig :=
  [{ address := "a", port := 1, pingURI := "" },
   { address := "a", port := 2, pingURI := "" },
   { address := "a", port := 3, pingURI := "" }]

/-- The load balancer `NewLoadBalancer "backend1" "" ssA3` constructs. -/
def lbA3 : RoundRobinLoadBalancer :=
  { backend := "backend1", servers := ssA3.map (mkEndpoint ""), cursor := 0 }

/-- The gauge events that construction emits. -/
def gaugeA3 : List GaugeEvent :=
  ssA3.map fun s => { path := ["endpoint", mkConnectAddress s], value := 1 }

/-- A two-server configuration. -/
def ssA2 : List ServerConfig :=
  [{ address := "a", port := 1, pingURI := "" },
   { address := "a", port := 2, pingURI := "" }]

/-- The load balancer constructed from `ssA2`. -/
def lbA2 : RoundRobinLoadBalancer :=
  { backend := "backend1", servers := ssA2.map (mkEndpoint ""), cursor := 0 }

/-- A configuration naming the same server (hence the same connect
address `a:1`) twice. -/
def ssDup : List ServerConfig :=
  [{ address := "a", port := 1, pingURI := "" },
   { address := "a", port := 1, pingURI := "" }]

/-- The load balancer constructed from `ssDup`. -/
def lbDup : RoundRobinLoadBalancer :=
  { backend := "backend1", servers := ssDup.map (mkEndpoint ""), cursor := 0 }

/-- A pool whose only endpoint is down. -/
def lbAllDown : RoundRobinLoadBalancer :=
  { backend := "backend1"
    servers := [{ address := "a:1", pingURI := "", caCertPath := "", up := false }]
    cursor := 0 }

/-- A stopped timer one of whose contributors reported an error
(mirrors `TestIfContributorErrorsThenTimerErrors`). -/
def timerWithContribError : EndToEndTimer :=
  { name := "foo", error := "", errorFree := true
    contributors := [{ name := "c1", error := "" }, { name := "c2", error := "oh whoops" }] }

/-- A stopped timer with no errors anywhere (mirrors
`TestContributors`). -/
def timerNoErrors : EndToEndTimer :=
  { name := "foo", error := "", errorFree := true
    contributors := [{ name := "c1", error := "" }, { name := "c2", error := "" }] }

end Xavi

deriving instance DecidableEq for Except

namespace Xavi

/-- A well-formed mark call on an address present in the pool succeeds
and leaves some endpoint carrying that address with the requested
status. -/
theorem changeEndpointStatus_ok_of_mem (lb : RoundRobinLoadBalancer)
    (a : String) (st : Bool) (hform : (splitOnChar ':' a.data).length = 2)
    (hwf : lb.cursor < lb.servers.length)
    (hmem : ∃ e ∈ lb.servers, e.address = a) :
    (changeEndpointStatus lb a st).1 = .ok () ∧
    ∃ e ∈ (changeEndpointStatus lb a st).2.servers, e.address = a ∧ e.up = st := by
  have hne : a ≠ "" := ne_empty_of_two_parts a hform
  obtain ⟨e, he, hea⟩ := hmem
  obtain ⟨j, hj⟩ := List.mem_iff_getElem?.mp he
  have hjlt : j < lb.servers.length := by
    by_contra hc
    rw [List.getElem?_eq_none (by omega)] at hj
    cases hj
  obtain ⟨i, hi, hoff⟩ := exists_rotation_offset lb.cursor j lb.servers.length hwf hjlt
  have hfound : (cesLoop a st lb.servers.length lb).1 = true :=
    cesLoop_found a st lb.servers.length lb hwf ⟨i, hi, e, by rw [hoff]; exact hj, hea⟩
  have hstate : (changeEndpointStatus lb a st).2 =
      (cesLoop a st lb.servers.length lb).2 := by
    unfold changeEndpointStatus
    simp [hne, hform, hfound]
  refine ⟨?_, ?_⟩
  · unfold changeEndpointStatus
    simp [hne, hform, hfound]
  · obtain ⟨j', e', hj', ha', hs'⟩ :=
      cesLoop_found_servers a st lb.servers.length lb hfound
    have hj'lt : j' < lb.servers.length := by
      by_contra hc
      rw [List.getElem?_eq_none (by omega)] at hj'
      cases hj'
    rw [hstate, hs']
    refine ⟨{ e' with up := st }, ?_, ha', rfl⟩
    refine List.mem_iff_getElem?.mpr ⟨j', ?_⟩
    rw [List.getElem?_set, if_pos rfl, if_pos hj'lt]

/-- C4 (counterexample): with the same connect address `a:1` configured
twice, `MarkEndpointDown "a:1"` succeeds (it marks the first matching
endpoint) but the very next `GetConnectAddress` still returns `a:1`
from the second, still-up endpoint. -/
theorem c4_counterexample :
    (lbDup.servers.map fun e => e.address) = ["a:1", "a:1"] ∧
    (MarkEndpointDown lbDup "a:1").2.1 = Except.ok () ∧
    (GetConnectAddress (MarkEndpointDown lbDup "a:1").2.2).1 = Except.ok "a:1" := by
  decide

/-- C4 (amended): `GetConnectAddress` only returns the address of an
endpoint whose `Up` flag is true at selection time; and on a pool with
pairwise distinct endpoint addresses, after a successful
`MarkEndpointDown addr` no `GetConnectAddress` in any run of operations
containing no `MarkEndpointUp addr` returns `addr`. -/
theorem c4_down_never_selected :
    (∀ (lb : RoundRobinLoadBalancer) (s : String),
      (GetConnectAddress lb).1 = Except.ok s →
      ∃ e ∈ lb.servers, e.address = s ∧ e.up = true) ∧
    (∀ (lb : RoundRobinLoadBalancer) (addr : String) (ops : List LBOp),
      (lb.servers.map fun e => e.address).Nodup →
      (MarkEndpointDown lb addr).2.1 = Except.ok () →
      LBOp.markUp addr ∉ ops →
      Except.ok addr ∉ runOps (MarkEndpointDown lb addr).2.2 ops) :=
  ⟨fun lb s h => getConnectAddress_ok lb s h,
   fun lb addr ops hnd hok hnotin =>
     runOps_avoids_down addr ops _ (allDownAt_after_mark_down lb addr hnd hok) hnotin⟩

/-- C4 (witness): on the distinct-address pool `a:1, a:2, a:3`, after
`MarkEndpointDown "a:2"`, a run of selections and an unrelated mark
never yields `a:2`. -/
theorem c4_witness :
    ((lbA3.servers.map fun e => e.address).Nodup ∧
     (MarkEndpointDown lbA3 "a:2").2.1 = Except.ok () ∧
     LBOp.markUp "a:2" ∉ [LBOp.get, LBOp.get, LBOp.markUp "a:1", LBOp.get]) ∧
    Except.ok "a:2" ∉
      runOps (MarkEndpointDown lbA3 "a:2").2.2
        [LBOp.get, LBOp.get, LBOp.markUp "a:1", LBOp.get] :=
  ⟨⟨by decide, by decide, by decide⟩,
   c4_down_never_selected.2 lbA3 "a:2" [LBOp.get, LBOp.get, LBOp.markUp "a:1", LBOp.get]
     (by decide) (by decide) (by decide)⟩

/-- C6: the mark operations reject the empty address and addresses
without exactly one `":"` (bad address), report not-in-pool for a
well-formed address matching no endpoint, and otherwise succeed,
setting the matching endpoint's `Up` flag to true (up) respectively
false (down).  The cursor-range hypothesis of the success case holds
for every constructed balancer (`newLoadBalancer_wf`,
`runOp_preserves_wf`). -/
theorem c6_mark_validation (lb : RoundRobinLoadBalancer) (addr : String) :
    (addr = "" →
      (MarkEndpointUp lb addr).2.1 = Except.error "Non-empty connectAddress expected" ∧
      (MarkEndpointDown lb addr).2.1 = Except.error "Non-empty connectAddress expected") ∧
    (addr ≠ "" → (splitOnChar ':' addr.data).length ≠ 2 →
      (MarkEndpointUp lb addr).2.1 =
        Except.error ("Expected connect address in the form of host:port (" ++ addr ++ ")") ∧
      (MarkEndpointDown lb addr).2.1 =
        Except.error ("Expected connect address in the form of host:port (" ++ addr ++ ")")) ∧
    ((splitOnChar ':' addr.data).length = 2 → (∀ e ∈ lb.servers, e.address ≠ addr) →
      (MarkEndpointUp lb addr).2.1 =
        Except.error ("Address not found in load balancing pool: " ++ addr) ∧
      (MarkEndpointDown lb addr).2.1 =
        Except.error ("Address not found in load balancing pool: " ++ addr)) ∧
    ((splitOnChar ':' addr.data).length = 2 → lb.cursor < lb.servers.length →
      (∃ e ∈ lb.servers, e.address = addr) →
      ((MarkEndpointUp lb addr).2.1 = Except.ok () ∧
       ∃ e ∈ (MarkEndpointUp lb addr).2.2.servers, e.address = addr ∧ e.up = true) ∧
      ((MarkEndpointDown lb addr).2.1 = Except.ok () ∧
       ∃ e ∈ (MarkEndpointDown lb addr).2.2.servers, e.address = addr ∧ e.up = false)) := by
  refine ⟨fun h0 => ?_, fun h0 h1 => ?_, fun hform hnall => ?_, fun hform hwf hmem => ?_⟩
  · constructor <;> simp [MarkEndpointUp, MarkEndpointDown, changeEndpointStatus, h0]
  · constructor <;> simp [MarkEndpointUp, MarkEndpointDown, changeEndpointStatus, h0, h1]
  · have hne : addr ≠ "" := ne_empty_of_two_parts addr hform
    have hnfu := cesLoop_not_found addr true lb.servers.length lb hnall
    have hnfd := cesLoop_not_found addr false lb.servers.length lb hnall
    constructor <;>
      simp [MarkEndpointUp, MarkEndpointDown, changeEndpointStatus, hne, hform, hnfu, hnfd]
  · exact ⟨changeEndpointStatus_ok_of_mem lb addr true hform hwf hmem,
           changeEndpointStatus_ok_of_mem lb addr false hform hwf hmem⟩

/-- C6 (witness): the four branches evaluated on the concrete
`a:1, a:2, a:3` balancer. -/
theorem c6_witness :
    ((MarkEndpointUp lbA3 "").2.1 = Except.error "Non-empty connectAddress expected" ∧
     (MarkEndpointDown lbA3 "").2.1 = Except.error "Non-empty connectAddress expected") ∧
    ((MarkEndpointUp lbA3 "nocolon").2.1 =
       Except.error ("Expected connect address in the form of host:port (" ++ "nocolon" ++ ")") ∧
     (MarkEndpointDown lbA3 "nocolon").2.1 =
       Except.error ("Expected connect address in the form of host:port (" ++ "nocolon" ++ ")")) ∧
    ((MarkEndpointUp lbA3 "b:9").2.1 =
       Except.error ("Address not found in load balancing pool: " ++ "b:9") ∧
     (MarkEndpointDown lbA3 "b:9").2.1 =
       Except.error ("Address not found in load balancing pool: " ++ "b:9")) ∧
    (((MarkEndpointUp lbA3 "a:2").2.1 = Except.ok () ∧
      ∃ e ∈ (MarkEndpointUp lbA3 "a:2").2.2.servers, e.address = "a:2" ∧ e.up = true) ∧
     ((MarkEndpointDown lbA3 "a:2").2.1 = Except.ok () ∧
      ∃ e ∈ (MarkEndpointDown lbA3 "a:2").2.2.servers, e.address = "a:2" ∧ e.up = false)) :=
  ⟨(c6_mark_validation lbA3 "").1 rfl,
   (c6_mark_validation lbA3 "nocolon").2.1 (by decide) (by decide),
   (c6_mark_validation lbA3 "b:9").2.2.1 (by decide) (by decide),
   (c6_mark_validation lbA3 "a:2").2.2.2 (by decide) (by decide) (by decide)⟩

/-- C1 (counterexample): on the fresh `a:1, a:2, a:3` balancer, all up,
`MarkEndpointDown "a:2"` succeeds but the next three
`GetConnectAddress` calls do NOT return `a:1, a:3, a:1`: the search
loop of `changeEndpointStatus` advanced the ring cursor past the
endpoint it marked. -/
theorem c1_counterexample :
    (MarkEndpointDown lbA3 "a:2").2.1 = Except.ok () ∧
    (runGCA (MarkEndpointDown lbA3 "a:2").2.2 3).1 ≠
      [Except.ok "a:1", Except.ok "a:3", Except.ok "a:1"] := by
  decide

/-- C1 (amended): on the fresh `a:1, a:2, a:3` balancer, all up, a
successful `MarkEndpointDown "a:2"` leaves the selection cursor just
past the marked endpoint (on `a:3`), so the next three
`GetConnectAddress` calls return `a:3, a:1, a:3`. -/
theorem c1_mark_down_then_next_three :
    (MarkEndpointDown lbA3 "a:2").2.1 = Except.ok () ∧
    (MarkEndpointDown lbA3 "a:2").2.2.cursor = 2 ∧
    (runGCA (MarkEndpointDown lbA3 "a:2").2.2 3).1 =
      [Except.ok "a:3", Except.ok "a:1", Except.ok "a:3"] := by
  decide

/-- C2 (counterexample): `MarkEndpointDown` does not leave the
selection cursor where it was — on the fresh `a:1, a:2` balancer a
successful `MarkEndpointDown "a:1"` moves the cursor from slot 0 to
slot 1. -/
theorem c2_counterexample :
    (MarkEndpointDown lbA2 "a:1").2.1 = Except.ok () ∧
    (MarkEndpointDown lbA2 "a:1").2.2.cursor ≠ lbA2.cursor := by
  decide

/-- C2 (amended): `MarkEndpointUp` and `MarkEndpointDown` change at
most the `Up` flag of one endpoint whose `Address` matches the
argument: the backend name, the ring membership and order (the address
sequence) and every other endpoint are unchanged.  The selection
cursor, however, is NOT preserved in general (see the counterexample);
and the source's `changeEndpointStatus` takes no lock, so the spec's
mutex clause has no sequential content to verify. -/
theorem c2_mark_frame (lb : RoundRobinLoadBalancer) (addr : String) :
    ((MarkEndpointUp lb addr).2.2.backend = lb.backend ∧
     (MarkEndpointUp lb addr).2.2.servers.map (fun e => e.address) =
       lb.servers.map (fun e => e.address) ∧
     OnlyUpChanged addr true lb.servers (MarkEndpointUp lb addr).2.2.servers) ∧
    ((MarkEndpointDown lb addr).2.2.backend = lb.backend ∧
     (MarkEndpointDown lb addr).2.2.servers.map (fun e => e.address) =
       lb.servers.map (fun e => e.address) ∧
     OnlyUpChanged addr false lb.servers (MarkEndpointDown lb addr).2.2.servers) :=
  ⟨⟨changeEndpointStatus_backend lb addr true,
    onlyUpChanged_map_address addr true lb.servers _ (changeEndpointStatus_frame lb addr true),
    changeEndpointStatus_frame lb addr true⟩,
   ⟨changeEndpointStatus_backend lb addr false,
    onlyUpChanged_map_address addr false lb.servers _ (changeEndpointStatus_frame lb addr false),
    changeEndpointStatus_frame lb addr false⟩⟩

/-- C5: when every endpoint of the pool is marked down,
`GetConnectAddress` returns no address but the error naming the backend
the balancer was constructed with (the search is the fuel-bounded
`gcaLoop`, one full revolution, so it cannot block). -/
theorem c5_all_down_error :
    (∀ lb : RoundRobinLoadBalancer, (∀ e ∈ lb.servers, e.up = false) →
      (GetConnectAddress lb).1 =
        Except.error ("All servers in backend " ++ lb.backend ++ " are marked down")) ∧
    (∀ (name cert : String) (ss : List ServerConfig)
        (lb : RoundRobinLoadBalancer) (evs : List GaugeEvent),
      NewLoadBalancer name cert ss = .ok (lb, evs) → lb.backend = name) := by
  constructor
  · intro lb h
    have hz := gcaLoop_all_down lb.servers.length lb h
    unfold GetConnectAddress
    simp [hz]
  · intro name cert ss lb evs h
    unfold NewLoadBalancer at h
    by_cases h0 : name = ""
    · simp [h0] at h
    · by_cases h1 : ss.length = 0
      · simp [h0, h1] at h
      · simp only [h0, h1, if_false, Except.ok.injEq, Prod.mk.injEq] at h
        rw [← h.1]

/-- C5 (witness): the error on a concrete all-down pool, and the
backend name of a concrete construction. -/
theorem c5_witness :
    ((∀ e ∈ lbAllDown.servers, e.up = false) ∧
     NewLoadBalancer "backend1" "" ssA3 = .ok (lbA3, gaugeA3)) ∧
    (GetConnectAddress lbAllDown).1 =
      Except.error ("All servers in backend " ++ lbAllDown.backend ++ " are marked down") ∧
    lbA3.backend = "backend1" :=
  ⟨⟨by decide, by decide⟩,
   c5_all_down_error.1 lbAllDown (by decide),
   c5_all_down_error.2 "backend1" "" ssA3 lbA3 gaugeA3 (by decide)⟩

/-- C7: the factory rejects an empty backend name and an empty server
list; otherwise it returns the balancer whose endpoints are the
servers' `host:port` addresses in order, all up, with one
`endpoint.<addr> = 1` gauge event per server. -/
theorem c7_factory_contract (name cert : String) (ss : List ServerConfig) :
    (name = "" → NewLoadBalancer name cert ss =
      .error "Expected non-empty backend name") ∧
    (name ≠ "" → ss = [] → NewLoadBalancer name cert ss =
      .error "Expected at least one server in servers argument") ∧
    (name ≠ "" → ss ≠ [] →
      NewLoadBalancer name cert ss =
        .ok ({ backend := name, servers := ss.map (mkEndpoint cert), cursor := 0 },
             ss.map fun s => { path := ["endpoint", mkConnectAddress s], value := 1 }) ∧
      ∀ s : ServerConfig, mkEndpoint cert s =
        { address := s.address ++ ":" ++ toString s.port
          pingURI := s.pingURI, caCertPath := cert, up := true }) := by
  refine ⟨fun h0 => ?_, fun h0 h1 => ?_, fun h0 h1 => ⟨?_, fun s => rfl⟩⟩
  · simp [NewLoadBalancer, h0]
  · simp [NewLoadBalancer, h0, h1]
  · have h1' : ss.length ≠ 0 := fun h => h1 (List.length_eq_zero.mp h)
    simp [NewLoadBalancer, h0, h1']

/-- C7 (witness): the contract evaluated on the concrete three-server
configuration. -/
theorem c7_witness :
    (("backend1" : String) ≠ "" ∧ ssA3 ≠ []) ∧
    NewLoadBalancer "backend1" "" ssA3 =
      .ok ({ backend := "backend1", servers := ssA3.map (mkEndpoint ""), cursor := 0 },
           ssA3.map fun s => { path := ["endpoint", mkConnectAddress s], value := 1 }) :=
  ⟨⟨by decide, by decide⟩,
   ((c7_factory_contract "backend1" "" ssA3).2.2 (by decide) (by decide)).1⟩

/-- C10: `MarkEndpointUp` emits the gauge `endpoint.<addr> = 1.0` and
`MarkEndpointDown` emits `endpoint.<addr> = 0.0` unconditionally,
before any validation — also on calls that then fail, in which case no
endpoint state changes. -/
theorem c10_gauge_before_validation (lb : RoundRobinLoadBalancer) (addr : String) :
    (MarkEndpointUp lb addr).1 = [{ path := ["endpoint", addr], value := 1 }] ∧
    (MarkEndpointDown lb addr).1 = [{ path := ["endpoint", addr], value := 0 }] ∧
    (∀ msg, (MarkEndpointUp lb addr).2.1 = .error msg →
      (MarkEndpointUp lb addr).2.2.servers = lb.servers) ∧
    (∀ msg, (MarkEndpointDown lb addr).2.1 = .error msg →
      (MarkEndpointDown lb addr).2.2.servers = lb.servers) :=
  ⟨rfl, rfl,
   fun msg h => changeEndpointStatus_error_servers lb addr true msg h,
   fun msg h => changeEndpointStatus_error_servers lb addr false msg h⟩

/-- C10 (witness): on the invalid empty address the gauges are still
emitted, the calls fail, and the pool is unchanged. -/
theorem c10_witness :
    ((MarkEndpointUp lbA3 "").2.1 = Except.error "Non-empty connectAddress expected" ∧
     (MarkEndpointDown lbA3 "").2.1 = Except.error "Non-empty connectAddress expected") ∧
    (MarkEndpointUp lbA3 "").1 = [{ path := ["endpoint", ""], value := 1 }] ∧
    (MarkEndpointDown lbA3 "").1 = [{ path := ["endpoint", ""], value := 0 }] ∧
    (MarkEndpointUp lbA3 "").2.2.servers = lbA3.servers ∧
    (MarkEndpointDown lbA3 "").2.2.servers = lbA3.servers :=
  ⟨⟨by decide, by decide⟩,
   (c10_gauge_before_validation lbA3 "").1,
   (c10_gauge_before_validation lbA3 "").2.1,
   (c10_gauge_before_validation lbA3 "").2.2.1 "Non-empty connectAddress expected" (by decide),
   (c10_gauge_before_validation lbA3 "").2.2.2 "Non-empty connectAddress expected" (by decide)⟩

/-- C8: registering a nil function fails with `ErrNoHealthCheckFn` for
every name; a non-nil function for a name outside the config snapshot
fails with `ErrNoSuchServer`; otherwise registration succeeds and
lookup returns the very function value registered. -/
theorem c8_registry_contract (F : Type) (serverNames : List String)
    (registry : List (String × F)) (name : String) (f : F) :
    RegisterHealthCheckForServer F serverNames registry name none =
      .error .errNoHealthCheckFn ∧
    (name ∉ serverNames →
      RegisterHealthCheckForServer F serverNames registry name (some f) =
        .error .errNoSuchServer) ∧
    (name ∈ serverNames →
      ∃ registry2,
        RegisterHealthCheckForServer F serverNames registry name (some f) =
          .ok registry2 ∧
        HealthCheckForServer F registry2 name = some f) := by
  refine ⟨rfl, fun h => ?_, fun h => ⟨(name, f) :: registry, ?_, ?_⟩⟩
  · simp [RegisterHealthCheckForServer, h]
  · simp [RegisterHealthCheckForServer, h]
  · exact List.lookup_cons_self

/-- C8 (witness): the three branches on a concrete one-server config
snapshot, with natural numbers standing in for function values. -/
theorem c8_witness :
    (("server1" : String) ∉ ["not a server name"] ∧
     ("server1" : String) ∈ ["server1"]) ∧
    RegisterHealthCheckForServer Nat ["server1"] [] "server1" none =
      .error .errNoHealthCheckFn ∧
    RegisterHealthCheckForServer Nat ["not a server name"] [] "server1" (some 7) =
      .error .errNoSuchServer ∧
    (∃ registry2,
      RegisterHealthCheckForServer Nat ["server1"] [] "server1" (some 7) =
        .ok registry2 ∧
      HealthCheckForServer Nat registry2 "server1" = some 7) :=
  ⟨⟨by decide, by decide⟩,
   (c8_registry_contract Nat ["server1"] [] "server1" 7).1,
   (c8_registry_contract Nat ["not a server name"] [] "server1" 7).2.1 (by decide),
   (c8_registry_contract Nat ["server1"] [] "server1" 7).2.2 (by decide)⟩

/-- C9: for every stopped timer, `ErrorFree` holds exactly when the
root error is empty and every contributor's error is empty;
`ContributorErrors` is exactly the contributors with a non-empty error;
hence a contributor-level error forces `ErrorFree = false` with a
non-empty `ContributorErrors`, and the error-free case has
`ContributorErrors` empty. -/
theorem c9_error_aggregation (t : EndToEndTimer) (err : Option String) :
    ((Stop t err).errorFree = true ↔
      ((Stop t err).error = "" ∧ ∀ c ∈ (Stop t err).contributors, c.error = "")) ∧
    (∀ c, c ∈ ContributorErrors (Stop t err) ↔
      (c ∈ (Stop t err).contributors ∧ c.error ≠ "")) ∧
    ((∃ c ∈ (Stop t err).contributors, c.error ≠ "") →
      (Stop t err).errorFree = false ∧
      1 ≤ (ContributorErrors (Stop t err)).length) ∧
    ((Stop t err).error = "" → (∀ c ∈ (Stop t err).contributors, c.error = "") →
      (Stop t err).errorFree = true ∧ ContributorErrors (Stop t err) = []) := by
  have hiff : (Stop t err).errorFree = true ↔
      ((Stop t err).error = "" ∧ ∀ c ∈ (Stop t err).contributors, c.error = "") := by
    simp [Stop, List.all_eq_true]
  have hmem : ∀ c, c ∈ ContributorErrors (Stop t err) ↔
      (c ∈ (Stop t err).contributors ∧ c.error ≠ "") := by
    intro c
    simp [ContributorErrors, Stop, List.mem_filter]
  refine ⟨hiff, hmem, fun hex => ⟨?_, ?_⟩, fun herr hall => ⟨hiff.mpr ⟨herr, hall⟩, ?_⟩⟩
  · obtain ⟨c, hc, hne⟩ := hex
    cases hfb : (Stop t err).errorFree with
    | false => rfl
    | true => exact absurd ((hiff.mp hfb).2 c hc) hne
  · obtain ⟨c, hc, hne⟩ := hex
    exact List.length_pos_of_mem ((hmem c).mpr ⟨hc, hne⟩)
  · have hnone : ∀ c ∈ (Stop t err).contributors, ¬((fun c => c.error != "") c = true) := by
      intro c hc
      simp [hall c hc]
    simpa [ContributorErrors] using List.filter_eq_nil_iff.mpr hnone

/-- C3 (counterexample): a balancer may legitimately be constructed
from two servers carrying the same connect address `a:1`; its two
successive selections then return `a:1, a:1` — in ring order, but not
two distinct addresses. -/
theorem c3_counterexample :
    NewLoadBalancer "backend1" "" ssDup =
      .ok (lbDup, [{ path := ["endpoint", "a:1"], value := 1 },
                   { path := ["endpoint", "a:1"], value := 1 }]) ∧
    (runGCA lbDup ssDup.length).1 = [Except.ok "a:1", Except.ok "a:1"] ∧
    ¬ ((runGCA lbDup ssDup.length).1).Nodup := by
  decide

/-- C3 (amended): a freshly constructed balancer with all `k` endpoints
up serves the `k` connect addresses in construction (ring) order and
wraps to the first address on call `k + 1`; the `k` results are
distinct whenever the configured connect addresses are distinct. -/
theorem c3_ring_order (name cert : String) (ss : List ServerConfig)
    (lb : RoundRobinLoadBalancer) (evs : List GaugeEvent) (hss : ss ≠ [])
    (hok : NewLoadBalancer name cert ss = .ok (lb, evs)) :
    (runGCA lb (ss.length + 1)).1 =
      (ss ++ [ss.head hss]).map (fun s => Except.ok (mkConnectAddress s)) ∧
    ((ss.map mkConnectAddress).Nodup → ((runGCA lb ss.length).1).Nodup) := by
  cases ss with
  | nil => exact absurd rfl hss
  | cons s₀ ss' =>
    unfold NewLoadBalancer at hok
    by_cases h0 : name = ""
    · simp [h0] at hok
    · rw [if_neg h0, if_neg (by simp : ¬((s₀ :: ss').length = 0))] at hok
      simp only [Except.ok.injEq, Prod.mk.injEq] at hok
      obtain ⟨hlb, hevs⟩ := hok
      subst hlb
      set es : List LoadBalancerEndpoint := (s₀ :: ss').map (mkEndpoint cert) with hes
      have hall : ∀ e ∈ ([] : List LoadBalancerEndpoint) ++ es,
          e.up = true ∧ e.address ≠ "" := by
        intro e he
        simp only [List.nil_append, hes] at he
        obtain ⟨s, _, rfl⟩ := List.mem_map.mp he
        exact ⟨rfl, mkConnectAddress_ne_empty s⟩
      have hrun := runGCA_all_up name es [] hall
      simp only [List.nil_append, List.length_nil, ite_self, hes] at hrun
      have hrun' : runGCA { backend := name, servers := es, cursor := 0 }
          (s₀ :: ss').length =
          (es.map (fun e => Except.ok e.address),
           { backend := name, servers := es, cursor := 0 }) := by
        rw [← List.length_map (s₀ :: ss') (mkEndpoint cert)]
        exact hrun
      have hc0 : ({ backend := name, servers := es, cursor := 0 } :
          RoundRobinLoadBalancer).servers[
            ({ backend := name, servers := es, cursor := 0 } :
              RoundRobinLoadBalancer).cursor]? = some (mkEndpoint cert s₀) := by
        simp [hes]
      have hstep := getConnectAddress_step
        { backend := name, servers := es, cursor := 0 } (mkEndpoint cert s₀)
        hc0 rfl (mkConnectAddress_ne_empty s₀)
      have hone : runGCA { backend := name, servers := es, cursor := 0 } 1 =
          ([(GetConnectAddress { backend := name, servers := es, cursor := 0 }).1],
           (GetConnectAddress { backend := name, servers := es, cursor := 0 }).2) :=
        runGCA_succ { backend := name, servers := es, cursor := 0 } 0
      constructor
      · have hsplit := runGCA_add (s₀ :: ss').length 1
          { backend := name, servers := es, cursor := 0 }
        rw [hsplit, hrun', hone, hstep]
        simp [hes, List.map_map, Function.comp, mkEndpoint]
      · intro hnd
        have h1 : (runGCA { backend := name, servers := es, cursor := 0 }
            (s₀ :: ss').length).1 = es.map (fun e => Except.ok e.address) := by
          rw [hrun']
        rw [h1, hes, List.map_map]
        have hfn : ((fun e => Except.ok e.address) ∘ mkEndpoint cert :
            ServerConfig → Except String String) =
            (fun s => Except.ok (mkConnectAddress s)) := rfl
        rw [hfn]
        have hre : ((s₀ :: ss').map (fun s => (Except.ok (mkConnectAddress s) :
            Except String String))) =
            ((s₀ :: ss').map mkConnectAddress).map Except.ok := by
          rw [List.map_map]
          rfl
        rw [hre]
        exact hnd.map (fun x y hxy => Except.ok.inj hxy)

/-- C3 (witness): the ring-order theorem evaluated on the concrete
three-server configuration `a:1, a:2, a:3`. -/
theorem c3_witness :
    (ssA3 ≠ [] ∧ NewLoadBalancer "backend1" "" ssA3 = .ok (lbA3, gaugeA3)) ∧
    (runGCA lbA3 (ssA3.length + 1)).1 =
      (ssA3 ++ [ssA3.head (by decide)]).map (fun s => Except.ok (mkConnectAddress s)) ∧
    ((ssA3.map mkConnectAddress).Nodup → ((runGCA lbA3 ssA3.length).1).Nodup) :=
  ⟨⟨by decide, by decide⟩,
   c3_ring_order "backend1" "" ssA3 lbA3 gaugeA3 (by decide) (by decide)⟩

/-- C9 (witness): the aggregation on two concrete stopped timers, one
with a contributor error and one without. -/
theorem c9_witness :
    ((∃ c ∈ (Stop timerWithContribError none).contributors, c.error ≠ "") ∧
     (Stop timerNoErrors none).error = "" ∧
     (∀ c ∈ (Stop timerNoErrors none).contributors, c.error = "")) ∧
    ((Stop timerWithContribError none).errorFree = false ∧
     1 ≤ (ContributorErrors (Stop timerWithContribError none)).length) ∧
    ((Stop timerNoErrors none).errorFree = true ∧
     ContributorErrors (Stop timerNoErrors none) = []) :=
  ⟨⟨by decide, by decide, by decide⟩,
   (c9_error_aggregation timerWithContribError none).2.2.1 (by decide),
   (c9_error_aggregation timerNoErrors none).2.2.2 (by decide) (by decide)⟩

end Xavi
